import Mathlib

/-!
Shallow embedding of `guides/bert_guide_finetuning.ipynb`, a notebook that
fine-tunes ModernBERT on the AG News four-class topic classification task.
The notebook's authored content is configuration and glue: a label schema,
a dataset-split selection, a preprocessing function, a metric function and a
hyperparameter record.  External library primitives (dataset registry,
tokenizer, numpy arg-max, the F1 metric, the trainer) are modelled from the
spec, each marked by a doc comment.
-/

namespace MA2

/-! ## Label schema (notebook cell defining id2label and label2id) -/

/-- The literal dict `id2label` of the notebook, as an association list in
insertion order. -/
def id2labelPairs : List (Nat × String) :=
  [(0, "World"), (1, "Sports"), (2, "Business"), (3, "Sci/Tech")]

/-- The dict comprehension building `label2id` by swapping every pair of
`id2label`.  Python dict construction keeps the last value on duplicate keys;
the four names are pairwise distinct (proved below), so first-match lookup on
this list agrees with the dict. -/
def label2idPairs : List (String × Nat) :=
  id2labelPairs.map (fun p => (p.2, p.1))

/-- Lookup in the `id2label` dict; `none` models a Python `KeyError`. -/
def id2label (i : Nat) : Option String :=
  (id2labelPairs.find? (fun p => p.1 == i)).map Prod.snd

/-- Lookup in the `label2id` dict; `none` models a Python `KeyError`. -/
def label2id (s : String) : Option Nat :=
  (label2idPairs.find? (fun p => p.1 == s)).map Prod.snd

/-! ## Model instantiation (notebook cell calling `from_pretrained`) -/

/-- Modelled from the spec: `ModernBertForSequenceClassification.from_pretrained`
loads pretrained encoder weights identified by a hub id and attaches a randomly
initialized linear classification head sized to the label count; the mappings
are stored as passed, and nothing in the straight-line notebook mutates them
afterwards. -/
structure SeqClassificationModel where
  pretrained : String
  num_labels : Nat
  id2label_map : List (Nat × String)
  label2id_map : List (String × Nat)

/-- Modelled from the spec: the classification head is sized to the label
count, so its output dimension is `num_labels`. -/
def classifierOutFeatures (m : SeqClassificationModel) : Nat :=
  m.num_labels

/-- The notebook's `model` value: pretrained ModernBERT-base with 4 labels and
the label schema passed through. -/
def model : SeqClassificationModel :=
  { pretrained := "answerdotai/ModernBERT-base"
    num_labels := 4
    id2label_map := id2labelPairs
    label2id_map := label2idPairs }

/-! ## Dataset acquisition (notebook cells calling `load_dataset`) -/

/-- An AG News example: a raw text with an integer topic label. -/
structure Example where
  text : String
  label : Nat
deriving DecidableEq

/-- Modelled from the spec: the hosted dataset registry resolves the dataset
id `fancyzhx/ag_news` to its two base splits. -/
structure Registry where
  train : List Example
  test : List Example

/-- Modelled from the spec: `load_dataset` resolves a split expression against
the registry; the percent slice `train[:10%]` keeps the first 10% of the train
split and the expression `test` returns the full test split. -/
def load_dataset (reg : Registry) (split : String) : List Example :=
  if split = "train[:10%]" then reg.train.take (reg.train.length * 10 / 100)
  else if split = "test" then reg.test
  else []

/-- The notebook's `ag_news_train` value. -/
def ag_news_train (reg : Registry) : List Example :=
  load_dataset reg "train[:10%]"

/-- The notebook's `ag_news_test` value. -/
def ag_news_test (reg : Registry) : List Example :=
  load_dataset reg "test"

/-- The notebook's `DatasetDict` with the two named splits, as an association
list in insertion order. -/
def ag_news (reg : Registry) : List (String × List Example) :=
  [("train", ag_news_train reg), ("test", ag_news_test reg)]

/-! ## Training configuration (notebook cell building `TrainingArguments`) -/

/-- The fields of `TrainingArguments` the notebook sets. -/
structure TrainingArguments where
  output_dir : String
  learning_rate : ℚ
  per_device_train_batch_size : Nat
  per_device_eval_batch_size : Nat
  num_train_epochs : Nat
  weight_decay : ℚ
  eval_strategy : String
  save_strategy : String
  load_best_model_at_end : Bool

/-- The notebook's literal hyperparameter record. -/
def training_args : TrainingArguments :=
  { output_dir := "my_awesome_model"
    learning_rate := 2 / 100000
    per_device_train_batch_size := 16
    per_device_eval_batch_size := 16
    num_train_epochs := 2
    weight_decay := 1 / 100
    eval_strategy := "epoch"
    save_strategy := "epoch"
    load_best_model_at_end := true }

/-- Modelled from the spec: the external trainer evaluates once per epoch
exactly when the evaluation strategy is the string `epoch`. -/
def evalsOncePerEpoch (args : TrainingArguments) : Bool :=
  args.eval_strategy == "epoch"

/-- Modelled from the spec: the external trainer saves a checkpoint once per
epoch exactly when the save strategy is the string `epoch`. -/
def savesOncePerEpoch (args : TrainingArguments) : Bool :=
  args.save_strategy == "epoch"

/-- Modelled from the spec: with `load_best_model_at_end` set, the trainer
retains only the best-scoring checkpoint at the end of training. -/
def retainsOnlyBestCheckpoint (args : TrainingArguments) : Bool :=
  args.load_best_model_at_end

/-! ## Tokenization and preprocessing (notebook cells 2.3) -/

/-- Modelled from the spec: the pretrained tokenizer carries a fixed
vocabulary-based segmentation (here an arbitrary encoding function from raw
text to token ids) and the model's maximum context window. -/
structure Tokenizer where
  encode : String → List Nat
  model_max_length : Nat

/-- Modelled from the spec: calling the tokenizer on a text with the
truncation flag cuts the token-id sequence to the maximum context window,
dropping trailing content silently; without it the full sequence is returned.
No padding is applied here and no error is ever raised (the function is
total). -/
def tokenizerApply (tok : Tokenizer) (text : String) (truncation : Bool) : List Nat :=
  if truncation then (tok.encode text).take tok.model_max_length
  else tok.encode text

/-- The notebook's `preprocess_function`: tokenize the text column of a batch
with the truncation flag set. -/
def preprocess_function (tok : Tokenizer) (texts : List String) : List (List Nat) :=
  texts.map (fun t => tokenizerApply tok t true)

/-- A tokenized example: the original columns plus the token ids and the
attention mask added by the tokenizer. -/
structure TokenizedExample where
  text : String
  label : Nat
  input_ids : List Nat
  attention_mask : List Nat

/-- Modelled from the spec: `Dataset.map` with a batched per-example function
merges the function's output columns into each example and keeps the existing
columns; the attention mask is all ones over the kept tokens.  Batching with
a batch size does not change the result of a per-example function. -/
def dataset_map (tok : Tokenizer) (xs : List Example) : List TokenizedExample :=
  xs.map (fun e =>
    { text := e.text
      label := e.label
      input_ids := tokenizerApply tok e.text true
      attention_mask := (tokenizerApply tok e.text true).map (fun _ => 1) })

/-- The notebook's `tokenized_ag_news`: the mapping pass applied to both
splits. -/
def tokenized_ag_news (tok : Tokenizer) (reg : Registry) :
    List (String × List TokenizedExample) :=
  [("train", dataset_map tok (ag_news_train reg)),
   ("test", dataset_map tok (ag_news_test reg))]

/-! ## Metric function (notebook cell 2.4) -/

/-- Modelled from the spec and the numpy documentation: the scan underlying
arg-max.  It walks the remaining scores keeping the index and value of the
best score seen so far and replaces them only on a strictly larger score, so
the first occurrence of the maximum wins. -/
def argmaxGo : List ℚ → Nat → ℚ → Nat → Nat
  | [], bi, _, _ => bi
  | x :: rest, bi, bv, i =>
    if bv < x then argmaxGo rest i x (i + 1) else argmaxGo rest bi bv (i + 1)

/-- Modelled from the spec: `np.argmax` on one row of scores returns the index
of the first occurrence of the maximum (numpy returns 0 on a degenerate empty
row, where the real library would raise). -/
def np_argmax : List ℚ → Nat
  | [] => 0
  | x :: rest => argmaxGo rest 0 x 1

/-- The notebook's `compute_metrics`: take the arg-max of every row of the
prediction matrix over the class axis, then hand the predicted classes and the
references to the F1 computation.  The F1 computation itself lives in the
external `evaluate` library (called with no averaging argument) and is kept
opaque: it is a parameter. -/
def compute_metrics (f1compute : List Nat → List Nat → ℚ)
    (predictions : List (List ℚ)) (labels : List Nat) : ℚ :=
  f1compute (predictions.map np_argmax) labels

/-! ## Facts about the arg-max scan -/

/-- The scan either keeps the incoming best index, in which case every
remaining score is at most the incoming best value, or lands on a remaining
score that strictly beats the incoming best value, is a maximum of the
remaining scores, and strictly beats every earlier remaining score. -/
theorem argmaxGo_spec (xs : List ℚ) : ∀ (bi : Nat) (bv : ℚ) (i : Nat),
    (argmaxGo xs bi bv i = bi ∧ ∀ k (hk : k < xs.length), xs[k] ≤ bv)
    ∨ (∃ k, ∃ hk : k < xs.length,
        argmaxGo xs bi bv i = i + k
        ∧ bv < xs[k]
        ∧ (∀ j (hj : j < xs.length), xs[j] ≤ xs[k])
        ∧ (∀ j (hj : j < xs.length), j < k → xs[j] < xs[k])) := by
  induction xs with
  | nil =>
    intro bi bv i
    exact Or.inl ⟨rfl, fun k hk => absurd hk (Nat.not_lt_zero k)⟩
  | cons x rest ih =>
    intro bi bv i
    by_cases hx : bv < x
    · rcases ih i x (i + 1) with ⟨heq, hall⟩ | ⟨k, hk, heq, hgt, hmax, hfirst⟩
      · refine Or.inr ⟨0, Nat.succ_pos _, ?_, ?_, ?_, ?_⟩
        · simpa [argmaxGo, hx] using heq
        · simpa using hx
        · intro j hj
          cases j with
          | zero => simp
          | succ j' =>
            have hj' : j' < rest.length := by
              simpa using Nat.lt_of_succ_lt_succ hj
            simpa using (hall j' hj').trans le_rfl
        · intro j hj hj0
          exact absurd hj0 (Nat.not_lt_zero j)
      · refine Or.inr ⟨k + 1, Nat.succ_lt_succ hk, ?_, ?_, ?_, ?_⟩
        · have hstep : argmaxGo (x :: rest) bi bv i = argmaxGo rest i x (i + 1) := by
            simp [argmaxGo, hx]
          rw [hstep, heq]
          omega
        · simpa using lt_trans hx hgt
        · intro j hj
          cases j with
          | zero => simpa using le_of_lt hgt
          | succ j' =>
            have hj' : j' < rest.length := by
              simpa using Nat.lt_of_succ_lt_succ hj
            simpa using hmax j' hj'
        · intro j hj hjk
          cases j with
          | zero => simpa using hgt
          | succ j' =>
            have hj' : j' < rest.length := by
              simpa using Nat.lt_of_succ_lt_succ hj
            have hj'k : j' < k := Nat.lt_of_succ_lt_succ hjk
            simpa using hfirst j' hj' hj'k
    · have hstep : argmaxGo (x :: rest) bi bv i = argmaxGo rest bi bv (i + 1) := by
        simp [argmaxGo, hx]
      rcases ih bi bv (i + 1) with ⟨heq, hall⟩ | ⟨k, hk, heq, hgt, hmax, hfirst⟩
      · refine Or.inl ⟨hstep.trans heq, ?_⟩
        intro k hk
        cases k with
        | zero => simpa using le_of_not_lt hx
        | succ k' =>
          have hk' : k' < rest.length := by
            simpa using Nat.lt_of_succ_lt_succ hk
          simpa using hall k' hk'
      · refine Or.inr ⟨k + 1, Nat.succ_lt_succ hk, ?_, ?_, ?_, ?_⟩
        · rw [hstep, heq]
          omega
        · simpa using hgt
        · intro j hj
          cases j with
          | zero => simpa using le_trans (le_of_not_lt hx) (le_of_lt hgt)
          | succ j' =>
            have hj' : j' < rest.length := by
              simpa using Nat.lt_of_succ_lt_succ hj
            simpa using hmax j' hj'
        · intro j hj hjk
          cases j with
          | zero => simpa using lt_of_le_of_lt (le_of_not_lt hx) hgt
          | succ j' =>
            have hj' : j' < rest.length := by
              simpa using Nat.lt_of_succ_lt_succ hj
            have hj'k : j' < k := Nat.lt_of_succ_lt_succ hjk
            simpa using hfirst j' hj' hj'k

/-- On a nonempty row, `np_argmax` is a valid index, attains the maximum, and
strictly exceeds every score at a smaller index. -/
theorem np_argmax_spec (row : List ℚ) (hne : row ≠ []) :
    ∃ h : np_argmax row < row.length,
      (∀ j (hj : j < row.length), row[j] ≤ row[np_argmax row])
      ∧ (∀ j (hj : j < row.length), j < np_argmax row → row[j] < row[np_argmax row]) := by
  cases row with
  | nil => exact absurd rfl hne
  | cons x rest =>
    rcases argmaxGo_spec rest 0 x 1 with ⟨heq, hall⟩ | ⟨k, hk, heq, hgt, hmax, hfirst⟩
    · have hnp : np_argmax (x :: rest) = 0 := by
        simpa [np_argmax] using heq
      refine ⟨by simp [hnp], ?_, ?_⟩
      · intro j hj
        cases j with
        | zero => simp [hnp]
        | succ j' =>
          have hj' : j' < rest.length := by
            simpa using Nat.lt_of_succ_lt_succ hj
          simpa [hnp] using hall j' hj'
      · intro j hj hjlt
        rw [hnp] at hjlt
        exact absurd hjlt (Nat.not_lt_zero j)
    · have hnp : np_argmax (x :: rest) = k + 1 := by
        have h1 : np_argmax (x :: rest) = 1 + k := by simpa [np_argmax] using heq
        omega
      have hlen : np_argmax (x :: rest) < (x :: rest).length := by
        simp only [hnp, List.length_cons]
        omega
      refine ⟨hlen, ?_, ?_⟩
      · intro j hj
        cases j with
        | zero => simpa [hnp] using le_of_lt hgt
        | succ j' =>
          have hj' : j' < rest.length := by
            simpa using Nat.lt_of_succ_lt_succ hj
          simpa [hnp] using hmax j' hj'
      · intro j hj hjlt
        cases j with
        | zero => simpa [hnp] using hgt
        | succ j' =>
          have hj' : j' < rest.length := by
            simpa using Nat.lt_of_succ_lt_succ hj
          have hj'k : j' < k := by
            rw [hnp] at hjlt
            omega
          simpa [hnp] using hfirst j' hj' hj'k

/-! ## Claim theorems on the schema and configuration -/

/-- C2: the label schema round-trips: for each of the four label names,
`id2label[label2id[name]] == name`. -/
theorem label_schema_roundtrip_names :
    (label2id "World").bind id2label = some "World"
    ∧ (label2id "Sports").bind id2label = some "Sports"
    ∧ (label2id "Business").bind id2label = some "Business"
    ∧ (label2id "Sci/Tech").bind id2label = some "Sci/Tech" := by
  refine ⟨?_, ?_, ?_, ?_⟩ <;> rfl

/-- C8: the reverse round-trip also holds: `label2id[id2label[id]] == id` for
each id in 0..3, and the four label names are pairwise distinct, so the
dict-comprehension inversion makes `label2id` a two-sided inverse of
`id2label`. -/
theorem label_schema_roundtrip_ids :
    ((id2label 0).bind label2id = some 0
      ∧ (id2label 1).bind label2id = some 1
      ∧ (id2label 2).bind label2id = some 2
      ∧ (id2label 3).bind label2id = some 3)
    ∧ (id2labelPairs.map Prod.snd).Nodup := by
  refine ⟨⟨rfl, rfl, rfl, rfl⟩, ?_⟩
  decide

/-- C3: the label schema is exactly the fixed mapping 0 ↦ World, 1 ↦ Sports,
2 ↦ Business, 3 ↦ Sci/Tech together with its name-to-id reverse, and the model
is constructed with exactly these mappings; the straight-line notebook never
mutates them after construction (in this pure embedding the stored maps are
definitionally the constructed ones). -/
theorem label_schema_fixed_and_shared :
    id2labelPairs = [(0, "World"), (1, "Sports"), (2, "Business"), (3, "Sci/Tech")]
    ∧ label2idPairs = [("World", 0), ("Sports", 1), ("Business", 2), ("Sci/Tech", 3)]
    ∧ model.id2label_map = id2labelPairs
    ∧ model.label2id_map = label2idPairs :=
  ⟨rfl, rfl, rfl, rfl⟩

/-- C7: the model is instantiated from the pretrained ModernBERT-base weights
with a classification head whose output dimension equals the label count,
namely four. -/
theorem model_head_sized_to_label_count :
    model.pretrained = "answerdotai/ModernBERT-base"
    ∧ model.num_labels = 4
    ∧ classifierOutFeatures model = 4
    ∧ classifierOutFeatures model = id2labelPairs.length :=
  ⟨rfl, rfl, rfl, rfl⟩

/-- C5: the training configuration evaluates once per epoch, saves a
checkpoint once per epoch, and retains only the best-scoring checkpoint at the
end of training (retention policy modelled from the spec from the
`load_best_model_at_end` flag). -/
theorem training_config_cadence_and_retention :
    training_args.eval_strategy = "epoch"
    ∧ training_args.save_strategy = "epoch"
    ∧ training_args.load_best_model_at_end = true
    ∧ evalsOncePerEpoch training_args = true
    ∧ savesOncePerEpoch training_args = true
    ∧ retainsOnlyBestCheckpoint training_args = true :=
  ⟨rfl, rfl, rfl, rfl, rfl, rfl⟩

/-- C6: the dataset consists of exactly the two named splits, the train split
being the first 10% of the source train split and the test split the full
source test split. -/
theorem dataset_two_splits (reg : Registry) :
    (ag_news reg).map Prod.fst = ["train", "test"]
    ∧ ag_news_train reg = reg.train.take (reg.train.length * 10 / 100)
    ∧ ag_news_test reg = reg.test
    ∧ (ag_news_train reg).length ≤ reg.train.length
    ∧ (ag_news_train reg).length * 10 ≤ reg.train.length * 10 := by
  refine ⟨rfl, rfl, rfl, ?_, ?_⟩
  · exact (List.length_take _ _).le.trans (le_trans (min_le_right _ _) le_rfl)
  · have h : (ag_news_train reg).length ≤ reg.train.length :=
      (List.length_take _ _).le.trans (min_le_right _ _)
    exact Nat.mul_le_mul_right 10 h

/-- C1: `compute_metrics` selects the highest-scoring class per example by
arg-max over the class axis and returns the F1 computation applied to those
predicted classes and the references; the F1 computation itself is the opaque
external library call (made with no averaging argument), kept as a parameter. -/
theorem compute_metrics_argmax_then_f1
    (f1compute : List Nat → List Nat → ℚ)
    (predictions : List (List ℚ)) (labels : List Nat)
    (row : List ℚ) (hrow : row ∈ predictions) (hne : row ≠ []) :
    compute_metrics f1compute predictions labels
        = f1compute (predictions.map np_argmax) labels
    ∧ np_argmax row ∈ predictions.map np_argmax
    ∧ ∃ h : np_argmax row < row.length,
        ∀ j (hj : j < row.length), row[j] ≤ row[np_argmax row] := by
  refine ⟨rfl, List.mem_map_of_mem np_argmax hrow, ?_⟩
  obtain ⟨h, hmax, _⟩ := np_argmax_spec row hne
  exact ⟨h, hmax⟩

/-- Witness for C1 at a concrete one-row prediction matrix. -/
theorem compute_metrics_argmax_then_f1_witness :
    ([(1 : ℚ), 3, 2] ∈ [[(1 : ℚ), 3, 2]] ∧ [(1 : ℚ), 3, 2] ≠ [])
    ∧ (compute_metrics (fun p _ => ((p.headD 0 : Nat) : ℚ)) [[(1 : ℚ), 3, 2]] [1]
          = (fun p _ => ((p.headD 0 : Nat) : ℚ)) ([[(1 : ℚ), 3, 2]].map np_argmax) [1]
       ∧ np_argmax [(1 : ℚ), 3, 2] ∈ [[(1 : ℚ), 3, 2]].map np_argmax
       ∧ ∃ h : np_argmax [(1 : ℚ), 3, 2] < [(1 : ℚ), 3, 2].length,
           ∀ j (hj : j < [(1 : ℚ), 3, 2].length),
             [(1 : ℚ), 3, 2][j] ≤ [(1 : ℚ), 3, 2][np_argmax [(1 : ℚ), 3, 2]]) :=
  ⟨⟨by simp, by simp⟩,
    compute_metrics_argmax_then_f1 (fun p _ => ((p.headD 0 : Nat) : ℚ))
      [[(1 : ℚ), 3, 2]] [1] [(1 : ℚ), 3, 2] (by simp) (by simp)⟩

/-- C9: `compute_metrics` is a deterministic (pure) function of its input, and
on a tie the arg-max selects the class with the lowest index: any index
attaining the maximal score is at least `np_argmax`. -/
theorem compute_metrics_deterministic_tie_lowest (row : List ℚ) (hne : row ≠ []) :
    np_argmax row < row.length
    ∧ (∀ j (hj : j < row.length),
        (∀ k (hk : k < row.length), row[k] ≤ row[j]) → np_argmax row ≤ j)
    ∧ ∀ (f1compute : List Nat → List Nat → ℚ) (labels : List Nat),
        compute_metrics f1compute [row] labels = f1compute [np_argmax row] labels := by
  obtain ⟨h, hmax, hfirst⟩ := np_argmax_spec row hne
  refine ⟨h, ?_, fun _ _ => rfl⟩
  intro j hj hjmax
  by_contra hlt
  push_neg at hlt
  have h1 : row[j] < row[np_argmax row] := hfirst j hj hlt
  have h2 : row[np_argmax row] ≤ row[j] := hjmax (np_argmax row) h
  exact absurd (lt_of_lt_of_le h1 h2) (lt_irrefl _)

/-- Witness for C9 at a concrete row with a tie between indices 0 and 1: the
arg-max evaluates to the lowest tied index, 0. -/
theorem compute_metrics_deterministic_tie_lowest_witness :
    ([(2 : ℚ), 2, 1] ≠ [])
    ∧ (np_argmax [(2 : ℚ), 2, 1] < [(2 : ℚ), 2, 1].length
       ∧ (∀ j (hj : j < [(2 : ℚ), 2, 1].length),
            (∀ k (hk : k < [(2 : ℚ), 2, 1].length),
              [(2 : ℚ), 2, 1][k] ≤ [(2 : ℚ), 2, 1][j]) →
            np_argmax [(2 : ℚ), 2, 1] ≤ j)
       ∧ ∀ (f1compute : List Nat → List Nat → ℚ) (labels : List Nat),
           compute_metrics f1compute [[(2 : ℚ), 2, 1]] labels
             = f1compute [np_argmax [(2 : ℚ), 2, 1]] labels)
    ∧ np_argmax [(2 : ℚ), 2, 1] = 0 :=
  ⟨by simp, compute_metrics_deterministic_tie_lowest [(2 : ℚ), 2, 1] (by simp),
    by decide⟩

/-- C4: the preprocessing function maps every text of the batch to its token
ids truncated to the model's maximum context window, never pads (the output is
never longer than the raw encoding), drops trailing content silently, and is
total, so no error is raised on over-long input. -/
theorem preprocess_truncates_silently (tok : Tokenizer) (texts : List String)
    (t : String) :
    (preprocess_function tok texts).length = texts.length
    ∧ preprocess_function tok texts
        = texts.map (fun s => (tok.encode s).take tok.model_max_length)
    ∧ tokenizerApply tok t true = (tok.encode t).take tok.model_max_length
    ∧ (tokenizerApply tok t true).length ≤ tok.model_max_length
    ∧ (tokenizerApply tok t true).length ≤ (tok.encode t).length
    ∧ (tokenizerApply tok t true).length
        = min tok.model_max_length (tok.encode t).length := by
  refine ⟨by simp [preprocess_function], rfl, rfl, ?_, ?_, ?_⟩
  · simp [tokenizerApply]
  · simp [tokenizerApply]
  · simp [tokenizerApply]

/-- C10: the tokenization mapping pass only adds the token-id and
attention-mask columns: the text and label columns of every example survive
unchanged in both tokenized splits, so training consumes exactly the labels of
the source dataset. -/
theorem tokenized_map_preserves_columns (tok : Tokenizer) (reg : Registry) :
    (tokenized_ag_news tok reg).map Prod.fst = ["train", "test"]
    ∧ (∀ xs : List Example,
        (dataset_map tok xs).map TokenizedExample.text = xs.map Example.text
        ∧ (dataset_map tok xs).map TokenizedExample.label = xs.map Example.label
        ∧ (dataset_map tok xs).map TokenizedExample.input_ids
            = xs.map (fun e => tokenizerApply tok e.text true))
    ∧ (dataset_map tok (ag_news_train reg)).map TokenizedExample.label
        = (ag_news_train reg).map Example.label
    ∧ (dataset_map tok (ag_news_test reg)).map TokenizedExample.label
        = (ag_news_test reg).map Example.label := by
  have hcols : ∀ xs : List Example,
      (dataset_map tok xs).map TokenizedExample.text = xs.map Example.text
      ∧ (dataset_map tok xs).map TokenizedExample.label = xs.map Example.label
      ∧ (dataset_map tok xs).map TokenizedExample.input_ids
          = xs.map (fun e => tokenizerApply tok e.text true) := by
    intro xs
    refine ⟨?_, ?_, ?_⟩ <;> simp [dataset_map]
  exact ⟨rfl, hcols, (hcols (ag_news_train reg)).2.1, (hcols (ag_news_test reg)).2.1⟩

end MA2
